import Mathlib

/-!
Verification of the persistence core of the academic-resources repository.

The TypeScript source is shallowly embedded as pure Lean functions over an
explicit `World` state (process environment, remote key-value store, local
filesystem, remote blob store, failure flags).  Conventions of the embedding:

* `process.env.X` is an `Option String` field of `Env`; JavaScript truthiness
  of an environment variable (`!!process.env.X`, `if (process.env.X && ...)`)
  is `truthy`: the variable is present and non-empty.
* The remote Redis/KV store and the local JSON documents are modelled at the
  level of parsed values (a JSON (de)serialisation round trip is the contract
  of `JSON.stringify`/`JSON.parse` and of the Redis client, both external
  libraries): a stored document is the list of records it holds.
* Fallible operations return `Except Err`; a remote call that fails (network
  error, thrown client error) is driven by the `redisDown` / `blobDelFails`
  flags of the `World`, standing for the `catch` paths of the source.
* Each operation additionally returns the ordered list of mutating effects it
  performed (local file writes and unlinks, remote key writes, remote blob
  deletions); read-only accesses produce no effect.
* All clock reads inside one repository call (`Date.now()`,
  `new Date().toISOString()`) are modelled as one instant `now : Nat` passed
  to the call; distinct calls may receive arbitrary (equal or not) instants.
  Timestamp strings are order-isomorphic to instants, so timestamps are kept
  as `Nat`; the generated record id `Date.now().toString()` is `toString now`.
-/

namespace AcademicResources

/-- JavaScript truthiness of an optional environment variable: present and
non-empty. -/
def truthy (o : Option String) : Bool := o.getD "" != ""

/-- The process environment variables consulted by the persistence core. -/
structure Env where
  VERCEL : Option String := none
  VERCEL_ENV : Option String := none
  UPSTASH_REDIS_REST_URL : Option String := none
  UPSTASH_REDIS_REST_TOKEN : Option String := none
  KV_REST_API_URL : Option String := none
  KV_REST_API_TOKEN : Option String := none
  BLOB_READ_WRITE_TOKEN : Option String := none
deriving DecidableEq, Repr

/-- `isVercelPlatform` from the projects module:
`process.env.VERCEL === '1' || !!process.env.VERCEL_ENV`. -/
def isVercelPlatform (e : Env) : Bool :=
  e.VERCEL == some "1" || truthy e.VERCEL_ENV

/-- `hasRedisConfig` from the projects module:
`!!(process.env.UPSTASH_REDIS_REST_URL || process.env.KV_REST_API_URL)`. -/
def hasRedisConfig (e : Env) : Bool :=
  truthy e.UPSTASH_REDIS_REST_URL || truthy e.KV_REST_API_URL

/-- `shouldUseRedis` from the projects module: required on Vercel, otherwise
used when configured. -/
def shouldUseRedis (e : Env) : Bool :=
  isVercelPlatform e || hasRedisConfig e

/-- A resolved remote key-value credential pair. -/
structure RedisConfig where
  url : String
  token : String
deriving DecidableEq, Repr

/-- `getRedisConfig` from the projects module: the Vercel KV pair if both of
its variables are set, else the Upstash pair if both of its variables are set,
else `null`. -/
def getRedisConfig (e : Env) : Option RedisConfig :=
  if truthy e.KV_REST_API_URL && truthy e.KV_REST_API_TOKEN then
    some ⟨e.KV_REST_API_URL.getD "", e.KV_REST_API_TOKEN.getD ""⟩
  else if truthy e.UPSTASH_REDIS_REST_URL && truthy e.UPSTASH_REDIS_REST_TOKEN then
    some ⟨e.UPSTASH_REDIS_REST_URL.getD "", e.UPSTASH_REDIS_REST_TOKEN.getD ""⟩
  else none

/-- `isVercelEnvironment` from the files module:
`!!(process.env.BLOB_READ_WRITE_TOKEN && process.env.UPSTASH_REDIS_REST_URL)`. -/
def isVercelEnvironment (e : Env) : Bool :=
  truthy e.BLOB_READ_WRITE_TOKEN && truthy e.UPSTASH_REDIS_REST_URL

/-- A `Project` record (timestamps as instants, see the file header). -/
structure Project where
  id : String
  name : String
  description : Option String := none
  moduleName : Option String := none
  supervisorName : Option String := none
  createdAt : Nat
  updatedAt : Nat
deriving DecidableEq, Repr

/-- A `FileMetadata` record. -/
structure FileMetadata where
  id : String
  projectId : String
  categoryId : String
  filename : String
  originalName : String
  size : Nat
  mimeType : String
  uploadedAt : Nat
  blobUrl : Option String := none
deriving DecidableEq, Repr

/-- The argument of `updateProject`:
`Partial<Pick<Project, 'name' | 'description' | 'moduleName' | 'supervisorName'>>`.
An outer `none` means the key is absent from the object (the spread leaves the
stored field alone). -/
structure ProjectUpdates where
  name : Option String := none
  description : Option (Option String) := none
  moduleName : Option (Option String) := none
  supervisorName : Option (Option String) := none
deriving DecidableEq, Repr

/-- A value stored under a key of the remote key-value store. -/
inductive StoreVal where
  | projects (ps : List Project)
  | files (fl : List FileMetadata)
deriving DecidableEq, Repr

/-- A file of the local filesystem: one of the two JSON collection documents,
or an uploaded binary blob. -/
inductive FsFile where
  | projectsDoc (ps : List Project)
  | filesDoc (fl : List FileMetadata)
  | blob (content : List Nat)
deriving DecidableEq, Repr

/-- Error taxonomy: the configuration error thrown by the projects module on
Vercel without credentials, and a remote-backend failure. -/
inductive Err where
  | configMissing
  | backendUnavailable
deriving DecidableEq, Repr

/-- A mutating effect performed against a backend, in execution order. -/
inductive Effect where
  | fsWrite (path : String)
  | fsUnlink (path : String)
  | kvSet (key : String)
  | blobDelete (url : String)
deriving DecidableEq, Repr

/-- The whole mutable world the persistence core acts on. -/
structure World where
  env : Env
  kv : String → Option StoreVal
  fs : String → Option FsFile
  blobs : String → Bool
  redisDown : Bool := false
  blobDelFails : Bool := false

def PROJECTS_KEY : String := "projects"
def FILES_KEY : String := "files"
def PROJECTS_FILE : String := "data/projects.json"
def FILES_DATA_FILE : String := "data/files.json"

/-- `getFilePath` from the files module: `path.join(UPLOADS_DIR, projectId,
categoryId, filename)`. -/
def getFilePath (projectId categoryId filename : String) : String :=
  "uploads/" ++ projectId ++ "/" ++ categoryId ++ "/" ++ filename

/-- Overwrite one path of the local filesystem. -/
def setFs (w : World) (p : String) (v : FsFile) : World :=
  { w with fs := fun q => if q = p then some v else w.fs q }

/-- Remove one path of the local filesystem. -/
def delFs (w : World) (p : String) : World :=
  { w with fs := fun q => if q = p then none else w.fs q }

/-- Overwrite one key of the remote key-value store. -/
def setKv (w : World) (k : String) (v : StoreVal) : World :=
  { w with kv := fun q => if q = k then some v else w.kv q }

/-- The result triple of a store operation: outcome, final world, ordered
mutating effects. -/
abbrev StoreResult (α : Type) := Except Err α × World × List Effect

/-! ## Projects module (server-side project management) -/

/-- `ensureDataDir`: create the data directory and an empty `projects.json`
when missing. -/
def ensureDataDir (w : World) : World × List Effect :=
  match w.fs PROJECTS_FILE with
  | none => (setFs w PROJECTS_FILE (.projectsDoc []), [.fsWrite PROJECTS_FILE])
  | some _ => (w, [])

/-- The project collection currently readable from the local document (missing
or unparsable reads as the empty collection). -/
def projectsState (w : World) : List Project :=
  match w.fs PROJECTS_FILE with
  | some (.projectsDoc ps) => ps
  | _ => []

/-- The project collection currently readable from the remote key. -/
def kvProjectsState (w : World) : List Project :=
  match w.kv PROJECTS_KEY with
  | some (.projects ps) => ps
  | _ => []

/-- `getAllProjectsLocal`: ensure the document exists, read and parse it; any
error yields the empty collection. -/
def getAllProjectsLocal (w : World) : List Project × World × List Effect :=
  match (ensureDataDir w).1.fs PROJECTS_FILE with
  | some (.projectsDoc ps) => (ps, ensureDataDir w)
  | _ => ([], ensureDataDir w)

/-- `saveProjectsLocal`: ensure the document exists, then overwrite it with
the serialized collection. -/
def saveProjectsLocal (ps : List Project) (w : World) : World × List Effect :=
  (setFs (ensureDataDir w).1 PROJECTS_FILE (.projectsDoc ps),
   (ensureDataDir w).2 ++ [.fsWrite PROJECTS_FILE])

/-- `getAllProjectsFromKV`: backend selection, the configuration-missing error
on Vercel, and the single-call local fallback of the `catch` path. -/
def getAllProjectsFromKV (w : World) : StoreResult (List Project) :=
  if !shouldUseRedis w.env then
    (.ok (getAllProjectsLocal w).1, (getAllProjectsLocal w).2)
  else
    match getRedisConfig w.env with
    | none =>
      if isVercelPlatform w.env then (.error .configMissing, w, [])
      else (.ok (getAllProjectsLocal w).1, (getAllProjectsLocal w).2)
    | some _ =>
      if w.redisDown then
        if isVercelPlatform w.env then (.error .backendUnavailable, w, [])
        else (.ok (getAllProjectsLocal w).1, (getAllProjectsLocal w).2)
      else (.ok (kvProjectsState w), w, [])

/-- `saveProjectsToKV`: the write-side twin of `getAllProjectsFromKV`. -/
def saveProjectsToKV (ps : List Project) (w : World) : StoreResult Unit :=
  if !shouldUseRedis w.env then
    (.ok (), saveProjectsLocal ps w)
  else
    match getRedisConfig w.env with
    | none =>
      if isVercelPlatform w.env then (.error .configMissing, w, [])
      else (.ok (), saveProjectsLocal ps w)
    | some _ =>
      if w.redisDown then
        if isVercelPlatform w.env then (.error .backendUnavailable, w, [])
        else (.ok (), saveProjectsLocal ps w)
      else (.ok (), setKv w PROJECTS_KEY (.projects ps), [.kvSet PROJECTS_KEY])

/-- The record built by `createProject`: id `Date.now().toString()`, the given
fields, both timestamps taken at the same instant. -/
def mkProject (now : Nat) (name : String)
    (description moduleName supervisorName : Option String) : Project :=
  { id := toString now, name, description, moduleName, supervisorName,
    createdAt := now, updatedAt := now }

/-- `createProject`: read all, append the new record, write all, return it. -/
def createProject (w : World) (now : Nat) (name : String)
    (description moduleName supervisorName : Option String) : StoreResult Project :=
  match getAllProjectsFromKV w with
  | (.error e, w1, e1) => (.error e, w1, e1)
  | (.ok projects, w1, e1) =>
    let newProject := mkProject now name description moduleName supervisorName
    match saveProjectsToKV (projects ++ [newProject]) w1 with
    | (.error e, w2, e2) => (.error e, w2, e1 ++ e2)
    | (.ok _, w2, e2) => (.ok newProject, w2, e1 ++ e2)

/-- The spread `{...existingProject, ...updates, updatedAt: now}`: fields named
by the update object take their new value, every other field is copied, and
`updatedAt` is refreshed. -/
def applyUpdates (p : Project) (u : ProjectUpdates) (now : Nat) : Project :=
  { p with
    name := u.name.getD p.name
    description := u.description.getD p.description
    moduleName := u.moduleName.getD p.moduleName
    supervisorName := u.supervisorName.getD p.supervisorName
    updatedAt := now }

/-- `updateProject`: read all, locate by `findIndex`, return `null` when the
id is absent, else merge in place, write all, return the updated record. -/
def updateProject (w : World) (now : Nat) (id : String)
    (updates : ProjectUpdates) : StoreResult (Option Project) :=
  match getAllProjectsFromKV w with
  | (.error e, w1, e1) => (.error e, w1, e1)
  | (.ok projects, w1, e1) =>
    match projects.findIdx? (fun p => p.id == id) with
    | none => (.ok none, w1, e1)
    | some i =>
      match projects[i]? with
      | none => (.ok none, w1, e1)
      | some existingProject =>
        let updated := applyUpdates existingProject updates now
        match saveProjectsToKV (projects.set i updated) w1 with
        | (.error e, w2, e2) => (.error e, w2, e1 ++ e2)
        | (.ok _, w2, e2) => (.ok (some updated), w2, e1 ++ e2)

/-! ## Files module -/

/-- The file-metadata collection currently readable from the local document. -/
def filesState (w : World) : List FileMetadata :=
  match w.fs FILES_DATA_FILE with
  | some (.filesDoc fl) => fl
  | _ => []

/-- The file-metadata collection currently readable from the remote key. -/
def kvFilesState (w : World) : List FileMetadata :=
  match w.kv FILES_KEY with
  | some (.files fl) => fl
  | _ => []

/-- `ensureFilesDataFile`: create the data directory and an empty `files.json`
when missing. -/
def ensureFilesDataFile (w : World) : World × List Effect :=
  match w.fs FILES_DATA_FILE with
  | none => (setFs w FILES_DATA_FILE (.filesDoc []), [.fsWrite FILES_DATA_FILE])
  | some _ => (w, [])

/-- `getAllFilesLocal`: ensure the document exists, read and parse it; a parse
failure yields the empty collection. -/
def getAllFilesLocal (w : World) : List FileMetadata × World × List Effect :=
  match (ensureFilesDataFile w).1.fs FILES_DATA_FILE with
  | some (.filesDoc fl) => (fl, ensureFilesDataFile w)
  | _ => ([], ensureFilesDataFile w)

/-- `saveFilesLocal`: ensure the document exists, then overwrite it. -/
def saveFilesLocal (fl : List FileMetadata) (w : World) : World × List Effect :=
  (setFs (ensureFilesDataFile w).1 FILES_DATA_FILE (.filesDoc fl),
   (ensureFilesDataFile w).2 ++ [.fsWrite FILES_DATA_FILE])

/-- `getAllFilesFromKV`: local fallback when the blob+redis pair is not fully
configured; inside the `try`, a Redis failure always falls back to local. -/
def getAllFilesFromKV (w : World) : StoreResult (List FileMetadata) :=
  if !isVercelEnvironment w.env then
    (.ok (getAllFilesLocal w).1, (getAllFilesLocal w).2)
  else
    if truthy w.env.UPSTASH_REDIS_REST_URL then
      if w.redisDown then
        (.ok (getAllFilesLocal w).1, (getAllFilesLocal w).2)
      else (.ok (kvFilesState w), w, [])
    else (.ok [], w, [])

/-- `saveFilesToKV`: the write-side twin of `getAllFilesFromKV`; a Redis
failure always falls back to the local document. -/
def saveFilesToKV (fl : List FileMetadata) (w : World) : StoreResult Unit :=
  if !isVercelEnvironment w.env then
    (.ok (), saveFilesLocal fl w)
  else
    if truthy w.env.UPSTASH_REDIS_REST_URL then
      if w.redisDown then
        (.ok (), saveFilesLocal fl w)
      else (.ok (), setKv w FILES_KEY (.files fl), [.kvSet FILES_KEY])
    else (.ok (), w, [])

/-- The lookup key of the files collection:
`f.projectId === projectId && f.categoryId === categoryId && f.filename === filename`. -/
def fileKeyMatches (projectId categoryId filename : String) (f : FileMetadata) : Bool :=
  f.projectId == projectId && f.categoryId == categoryId && f.filename == filename

/-- The blob-url truthiness test `fileMetadata?.blobUrl` of `deleteFile`. -/
def metadataHasBlobUrl (fileMetadata : Option FileMetadata) : Bool :=
  match fileMetadata with
  | some fm => truthy fm.blobUrl
  | none => false

/-- The blob url read from the located metadata record. -/
def metadataBlobUrl (fileMetadata : Option FileMetadata) : String :=
  match fileMetadata with
  | some fm => fm.blobUrl.getD ""
  | none => ""

/-- The content-deletion step of `deleteFile`: a remote `del` inside a
swallowed `try`/`catch` when the located record carries a blob url and the
blob environment is configured, else a guarded local unlink when the blob
environment is not configured. -/
def deleteContentStep (w1 : World) (fileMetadata : Option FileMetadata)
    (projectId categoryId filename : String) : World × List Effect :=
  if metadataHasBlobUrl fileMetadata && isVercelEnvironment w1.env then
    if w1.blobDelFails then (w1, [])
    else
      ({ w1 with blobs := fun u =>
          if u = metadataBlobUrl fileMetadata then false else w1.blobs u },
       [.blobDelete (metadataBlobUrl fileMetadata)])
  else if !isVercelEnvironment w1.env then
    match w1.fs (getFilePath projectId categoryId filename) with
    | some _ => (delFs w1 (getFilePath projectId categoryId filename),
                 [.fsUnlink (getFilePath projectId categoryId filename)])
    | none => (w1, [])
  else (w1, [])

/-- `deleteFile`: read the collection, delete the blob content, then write the
collection back without every record matching the key. -/
def deleteFile (w : World) (projectId categoryId filename : String) : StoreResult Unit :=
  match getAllFilesFromKV w with
  | (.error e, w1, e1) => (.error e, w1, e1)
  | (.ok files, w1, e1) =>
    let step := deleteContentStep w1
      (files.find? (fileKeyMatches projectId categoryId filename))
      projectId categoryId filename
    match saveFilesToKV
        (files.filter (fun f => !(fileKeyMatches projectId categoryId filename f)))
        step.1 with
    | (.error e, w3, e3) => (.error e, w3, e1 ++ step.2 ++ e3)
    | (.ok _, w3, e3) => (.ok (), w3, e1 ++ step.2 ++ e3)

/-! ## Auth module -/

def ADMIN_COOKIE_NAME : String := "admin_session"

/-- `isAdminServer`: the whole body sits inside a `try` whose `catch` returns
`false`; the input is the outcome of `await cookies()` — either a failure or a
cookie store, read at `ADMIN_COOKIE_NAME` and compared to `'authenticated'`. -/
def isAdminServer (cookieStoreResult : Except Unit (String → Option String)) : Bool :=
  match cookieStoreResult with
  | .error _ => false
  | .ok cookieStore => cookieStore ADMIN_COOKIE_NAME == some "authenticated"

/-! ## Call sequences over the projects repository -/

/-- One repository call: a create (with its call instant and arguments) or an
update. -/
inductive Call where
  | create (now : Nat) (name : String) (description moduleName supervisorName : Option String)
  | update (now : Nat) (id : String) (updates : ProjectUpdates)
deriving DecidableEq, Repr

/-- Run one repository call for its state effect. -/
def runCall (w : World) (c : Call) : World :=
  match c with
  | .create now name d m s => (createProject w now name d m s).2.1
  | .update now id u => (updateProject w now id u).2.1

/-- Run a sequence of repository calls. -/
def runCalls (cs : List Call) (w : World) : World :=
  cs.foldl runCall w

/-- The call instants of the create calls of a sequence. -/
def createTimes (cs : List Call) : List Nat :=
  cs.filterMap fun c =>
    match c with
    | .create now _ _ _ _ => some now
    | .update _ _ _ => none

/-- An environment with no variable set: a general-purpose host with no remote
credentials. -/
def emptyEnv : Env := {}

/-- A world on a general-purpose host whose local project document holds `ps`
and whose stores are otherwise empty. -/
def localWorld (ps : List Project) : World :=
  { env := emptyEnv
    kv := fun _ => none
    fs := fun q => if q = PROJECTS_FILE then some (.projectsDoc ps) else none
    blobs := fun _ => false }

/-- The world every call sequence starts from: empty stores, no credentials. -/
def initialWorld : World :=
  { env := emptyEnv
    kv := fun _ => none
    fs := fun _ => none
    blobs := fun _ => false }

/-! ## Decimal rendering of instants

`Date.now().toString()` renders a `Nat` in decimal (`Nat.repr`).  The library
carries no injectivity lemma for it, so it is derived here from a
little-endian digit expansion. -/

/-- Little-endian decimal digits of a natural number (never empty). -/
def digitsRev (n : Nat) : List Nat :=
  if h : n < 10 then [n] else n % 10 :: digitsRev (n / 10)
decreasing_by exact Nat.div_lt_self (by omega) (by omega)

/-- Value of a little-endian digit list. -/
def valRev : List Nat → Nat
  | [] => 0
  | d :: ds => d + 10 * valRev ds

theorem valRev_digitsRev (n : Nat) : valRev (digitsRev n) = n := by
  induction n using Nat.strong_induction_on with
  | _ n ih =>
    rw [digitsRev]
    by_cases h : n < 10
    · simp [h, valRev]
    · simp only [h, if_false, valRev, dite_false]
      rw [ih (n / 10) (Nat.div_lt_self (by omega) (by omega))]
      omega

theorem digitsRev_inj {m n : Nat} (h : digitsRev m = digitsRev n) : m = n := by
  have hm := valRev_digitsRev m
  have hn := valRev_digitsRev n
  rw [← hm, ← hn, h]

theorem digitsRev_lt (n : Nat) : ∀ d ∈ digitsRev n, d < 10 := by
  induction n using Nat.strong_induction_on with
  | _ n ih =>
    rw [digitsRev]
    by_cases h : n < 10
    · intro d hd
      simp [h] at hd
      omega
    · simp only [h, dite_false, List.mem_cons]
      intro d hd
      rcases hd with hd | hd
      · omega
      · exact ih (n / 10) (Nat.div_lt_self (by omega) (by omega)) d hd

theorem digitsRev_ne_nil (n : Nat) : digitsRev n ≠ [] := by
  rw [digitsRev]
  by_cases h : n < 10 <;> simp [h]

theorem digitChar_inj_lt : ∀ d1 < 10, ∀ d2 < 10,
    Nat.digitChar d1 = Nat.digitChar d2 → d1 = d2 := by decide

theorem map_digitChar_inj : ∀ l1 l2 : List Nat, (∀ d ∈ l1, d < 10) →
    (∀ d ∈ l2, d < 10) → l1.map Nat.digitChar = l2.map Nat.digitChar → l1 = l2
  | [], [], _, _, _ => rfl
  | [], _ :: _, _, _, h => by simp at h
  | _ :: _, [], _, _, h => by simp at h
  | d1 :: t1, d2 :: t2, h1, h2, h => by
    simp only [List.map_cons, List.cons.injEq] at h
    have hd := digitChar_inj_lt d1 (h1 d1 (by simp)) d2 (h2 d2 (by simp)) h.1
    have ht := map_digitChar_inj t1 t2 (fun d hd => h1 d (by simp [hd]))
      (fun d hd => h2 d (by simp [hd])) h.2
    rw [hd, ht]

theorem asString_data (l : List Char) : (List.asString l).data = l := rfl

theorem asString_injective : Function.Injective List.asString := by
  intro a b h
  rw [← asString_data a, ← asString_data b, h]

theorem toDigitsCore_succ (f n : Nat) (acc : List Char) :
    Nat.toDigitsCore 10 (f + 1) n acc =
      if n / 10 = 0 then Nat.digitChar (n % 10) :: acc
      else Nat.toDigitsCore 10 f (n / 10) (Nat.digitChar (n % 10) :: acc) := rfl

theorem toDigitsCore_eq_digitsRev : ∀ f n acc, n < f →
    Nat.toDigitsCore 10 f n acc = ((digitsRev n).map Nat.digitChar).reverse ++ acc := by
  intro f
  induction f with
  | zero => omega
  | succ f ih =>
    intro n acc hn
    rw [toDigitsCore_succ, digitsRev]
    by_cases h : n < 10
    · have hdiv : n / 10 = 0 := Nat.div_eq_of_lt h
      simp [hdiv, h, Nat.mod_eq_of_lt h]
    · have hdiv : n / 10 ≠ 0 := by
        have h1 : 1 ≤ n / 10 := (Nat.one_le_div_iff (by omega)).mpr (by omega)
        omega
      have hdivlt : n / 10 < f := by
        have := Nat.div_lt_self (show 0 < n by omega) (show 1 < 10 by omega)
        omega
      simp only [h, dite_false, List.map_cons, List.reverse_cons, hdiv, if_false]
      rw [ih (n / 10) (Nat.digitChar (n % 10) :: acc) hdivlt]
      simp

theorem repr_eq_digitsRev (n : Nat) :
    Nat.repr n = (((digitsRev n).map Nat.digitChar).reverse).asString := by
  show (Nat.toDigits 10 n).asString = _
  rw [Nat.toDigits, toDigitsCore_eq_digitsRev (n + 1) n [] (by omega)]
  simp

theorem natRepr_injective : Function.Injective Nat.repr := by
  intro m n h
  rw [repr_eq_digitsRev, repr_eq_digitsRev] at h
  have hmap : (digitsRev m).map Nat.digitChar = (digitsRev n).map Nat.digitChar :=
    List.reverse_injective (asString_injective h)
  exact digitsRev_inj (map_digitChar_inj _ _ (digitsRev_lt m) (digitsRev_lt n) hmap)

theorem natRepr_ne_empty (n : Nat) : Nat.repr n ≠ "" := by
  rw [repr_eq_digitsRev]
  intro h
  have hempty : ((digitsRev n).map Nat.digitChar).reverse = [] := by
    have : ("" : String) = List.asString [] := rfl
    rw [this] at h
    exact asString_injective h
  have : (digitsRev n).map Nat.digitChar = [] := by
    have := congrArg List.reverse hempty
    simpa using this
  have := congrArg List.length this
  simp only [List.length_map, List.length_nil] at this
  exact digitsRev_ne_nil n (List.length_eq_zero.mp this)

/-! ## Helper lemmas about the store operations -/

theorem toString_nat_eq (n : Nat) : toString n = Nat.repr n := rfl

theorem set_self_of_getElem? : ∀ (l : List α) (i : Nat) (x : α),
    l[i]? = some x → l.set i x = l
  | [], _, _, h => by simp at h
  | a :: t, 0, x, h => by simp_all
  | a :: t, i + 1, x, h => by
    simp only [List.getElem?_cons_succ] at h
    simp [List.set_cons_succ, set_self_of_getElem? t i x h]

theorem setFs_env (w : World) (p : String) (v : FsFile) : (setFs w p v).env = w.env := rfl

theorem setKv_env (w : World) (k : String) (v : StoreVal) : (setKv w k v).env = w.env := rfl

theorem setFs_fs_self (w : World) (p : String) (v : FsFile) : (setFs w p v).fs p = some v := by
  simp [setFs]

theorem ensureDataDir_env (w : World) : (ensureDataDir w).1.env = w.env := by
  unfold ensureDataDir
  cases w.fs PROJECTS_FILE <;> rfl

theorem ensureDataDir_state (w : World) :
    projectsState (ensureDataDir w).1 = projectsState w := by
  unfold ensureDataDir projectsState
  cases h : w.fs PROJECTS_FILE <;> simp [setFs, h]

theorem getAllProjectsLocal_fst (w : World) : (getAllProjectsLocal w).1 = projectsState w := by
  unfold getAllProjectsLocal
  cases h : w.fs PROJECTS_FILE with
  | none => simp [ensureDataDir, h, setFs, projectsState]
  | some v =>
    cases v <;> simp [ensureDataDir, h, projectsState]

theorem getAllProjectsLocal_env (w : World) : (getAllProjectsLocal w).2.1.env = w.env := by
  unfold getAllProjectsLocal
  cases h : (ensureDataDir w).1.fs PROJECTS_FILE with
  | none => simpa using ensureDataDir_env w
  | some v => cases v <;> simpa using ensureDataDir_env w

theorem getAllProjectsLocal_state (w : World) :
    projectsState (getAllProjectsLocal w).2.1 = projectsState w := by
  unfold getAllProjectsLocal
  cases h : (ensureDataDir w).1.fs PROJECTS_FILE with
  | none => simpa using ensureDataDir_state w
  | some v => cases v <;> simpa using ensureDataDir_state w

theorem saveProjectsLocal_env (ps : List Project) (w : World) :
    (saveProjectsLocal ps w).1.env = w.env := by
  unfold saveProjectsLocal
  rw [setFs_env, ensureDataDir_env]

theorem saveProjectsLocal_state (ps : List Project) (w : World) :
    projectsState (saveProjectsLocal ps w).1 = ps := by
  unfold saveProjectsLocal projectsState
  rw [setFs_fs_self]

theorem getAllProjectsFromKV_local (w : World) (h : shouldUseRedis w.env = false) :
    getAllProjectsFromKV w =
      (.ok (getAllProjectsLocal w).1, (getAllProjectsLocal w).2.1, (getAllProjectsLocal w).2.2) := by
  simp [getAllProjectsFromKV, h]

theorem saveProjectsToKV_local (ps : List Project) (w : World)
    (h : shouldUseRedis w.env = false) :
    saveProjectsToKV ps w =
      (.ok (), (saveProjectsLocal ps w).1, (saveProjectsLocal ps w).2) := by
  simp [saveProjectsToKV, h]

theorem shouldUseRedis_of_config (e : Env) (h : (getRedisConfig e).isSome) :
    shouldUseRedis e = true := by
  unfold getRedisConfig at h
  by_cases h1 : truthy e.KV_REST_API_URL && truthy e.KV_REST_API_TOKEN
  · have := Bool.and_elim_left h1
    simp [shouldUseRedis, hasRedisConfig, this]
  · by_cases h2 : truthy e.UPSTASH_REDIS_REST_URL && truthy e.UPSTASH_REDIS_REST_TOKEN
    · have := Bool.and_elim_left h2
      simp [shouldUseRedis, hasRedisConfig, this]
    · simp [h1, h2] at h

theorem createProject_local (w : World) (now : Nat) (name : String)
    (d m s : Option String) (h : shouldUseRedis w.env = false) :
    createProject w now name d m s =
      (.ok (mkProject now name d m s),
       (saveProjectsLocal (projectsState w ++ [mkProject now name d m s])
          (getAllProjectsLocal w).2.1).1,
       (getAllProjectsLocal w).2.2 ++
       (saveProjectsLocal (projectsState w ++ [mkProject now name d m s])
          (getAllProjectsLocal w).2.1).2) := by
  have h1 : shouldUseRedis (getAllProjectsLocal w).2.1.env = false := by
    rw [getAllProjectsLocal_env]; exact h
  simp only [createProject, getAllProjectsFromKV_local w h, getAllProjectsLocal_fst,
    saveProjectsToKV_local _ _ h1]

theorem createProject_local_state (w : World) (now : Nat) (name : String)
    (d m s : Option String) (h : shouldUseRedis w.env = false) :
    projectsState (createProject w now name d m s).2.1 =
      projectsState w ++ [mkProject now name d m s] := by
  rw [createProject_local w now name d m s h]
  exact saveProjectsLocal_state _ _

theorem createProject_local_env (w : World) (now : Nat) (name : String)
    (d m s : Option String) (h : shouldUseRedis w.env = false) :
    (createProject w now name d m s).2.1.env = w.env := by
  rw [createProject_local w now name d m s h]
  rw [saveProjectsLocal_env, getAllProjectsLocal_env]

theorem updateProject_local_ids (w : World) (now : Nat) (id : String)
    (u : ProjectUpdates) (h : shouldUseRedis w.env = false) :
    (projectsState (updateProject w now id u).2.1).map (fun p => p.id) =
      (projectsState w).map (fun p => p.id) := by
  have h1 : shouldUseRedis (getAllProjectsLocal w).2.1.env = false := by
    rw [getAllProjectsLocal_env]; exact h
  simp only [updateProject, getAllProjectsFromKV_local w h, getAllProjectsLocal_fst]
  cases hfind : (projectsState w).findIdx? (fun p => p.id == id) with
  | none =>
    simp only [hfind]
    simpa using congrArg (List.map fun p => p.id) (getAllProjectsLocal_state w)
  | some i =>
    cases hget : (projectsState w)[i]? with
    | none =>
      simp only [hfind, hget]
      simpa using congrArg (List.map fun p => p.id) (getAllProjectsLocal_state w)
    | some old =>
      simp only [hfind, hget, saveProjectsToKV_local _ _ h1]
      rw [saveProjectsLocal_state, List.map_set]
      have hid : (applyUpdates old u now).id = old.id := rfl
      rw [hid]
      have hmapget : ((projectsState w).map (fun p => p.id))[i]? = some old.id := by
        rw [List.getElem?_map, hget]
        rfl
      exact set_self_of_getElem? _ i _ hmapget

theorem updateProject_local_env (w : World) (now : Nat) (id : String)
    (u : ProjectUpdates) (h : shouldUseRedis w.env = false) :
    (updateProject w now id u).2.1.env = w.env := by
  have h1 : shouldUseRedis (getAllProjectsLocal w).2.1.env = false := by
    rw [getAllProjectsLocal_env]; exact h
  simp only [updateProject, getAllProjectsFromKV_local w h, getAllProjectsLocal_fst]
  cases hfind : (projectsState w).findIdx? (fun p => p.id == id) with
  | none =>
    simp only [hfind]
    simpa using getAllProjectsLocal_env w
  | some i =>
    cases hget : (projectsState w)[i]? with
    | none =>
      simp only [hfind, hget]
      simpa using getAllProjectsLocal_env w
    | some old =>
      simp only [hfind, hget, saveProjectsToKV_local _ _ h1]
      rw [saveProjectsLocal_env, getAllProjectsLocal_env]

theorem runCall_local_env (w : World) (c : Call) (h : shouldUseRedis w.env = false) :
    (runCall w c).env = w.env := by
  cases c with
  | create now name d m s => exact createProject_local_env w now name d m s h
  | update now id u => exact updateProject_local_env w now id u h

theorem runCall_local_ids (w : World) (c : Call) (h : shouldUseRedis w.env = false) :
    (projectsState (runCall w c)).map (fun p => p.id) =
      (projectsState w).map (fun p => p.id) ++ (createTimes [c]).map Nat.repr := by
  cases c with
  | create now name d m s =>
    rw [runCall, createProject_local_state w now name d m s h]
    simp [createTimes, mkProject, toString_nat_eq]
  | update now id u =>
    rw [runCall]
    rw [updateProject_local_ids w now id u h]
    simp [createTimes]

theorem runCalls_local_ids : ∀ (cs : List Call) (w : World),
    shouldUseRedis w.env = false →
    (projectsState (runCalls cs w)).map (fun p => p.id) =
      (projectsState w).map (fun p => p.id) ++ (createTimes cs).map Nat.repr := by
  intro cs
  induction cs with
  | nil => intro w _; simp [runCalls, createTimes]
  | cons c cs ih =>
    intro w h
    have hstep : runCalls (c :: cs) w = runCalls cs (runCall w c) := rfl
    have henv : shouldUseRedis (runCall w c).env = false := by
      rw [runCall_local_env w c h]; exact h
    rw [hstep, ih (runCall w c) henv, runCall_local_ids w c h]
    have hct : createTimes (c :: cs) = createTimes [c] ++ createTimes cs := by
      cases c <;> simp [createTimes]
    rw [hct]
    simp [List.append_assoc]

theorem ensureFilesDataFile_env (w : World) : (ensureFilesDataFile w).1.env = w.env := by
  unfold ensureFilesDataFile
  cases w.fs FILES_DATA_FILE <;> rfl

theorem ensureFilesDataFile_state (w : World) :
    filesState (ensureFilesDataFile w).1 = filesState w := by
  unfold ensureFilesDataFile filesState
  cases h : w.fs FILES_DATA_FILE <;> simp [setFs, h]

theorem getAllFilesLocal_fst (w : World) : (getAllFilesLocal w).1 = filesState w := by
  unfold getAllFilesLocal
  cases h : w.fs FILES_DATA_FILE with
  | none => simp [ensureFilesDataFile, h, setFs, filesState]
  | some v => cases v <;> simp [ensureFilesDataFile, h, filesState]

theorem getAllFilesLocal_env (w : World) : (getAllFilesLocal w).2.1.env = w.env := by
  unfold getAllFilesLocal
  cases h : (ensureFilesDataFile w).1.fs FILES_DATA_FILE with
  | none => simpa using ensureFilesDataFile_env w
  | some v => cases v <;> simpa using ensureFilesDataFile_env w

theorem saveFilesLocal_env (fl : List FileMetadata) (w : World) :
    (saveFilesLocal fl w).1.env = w.env := by
  unfold saveFilesLocal
  rw [setFs_env, ensureFilesDataFile_env]

theorem saveFilesLocal_doc (fl : List FileMetadata) (w : World) :
    (saveFilesLocal fl w).1.fs FILES_DATA_FILE = some (.filesDoc fl) := by
  unfold saveFilesLocal
  rw [setFs_fs_self]

theorem saveFilesLocal_state (fl : List FileMetadata) (w : World) :
    filesState (saveFilesLocal fl w).1 = fl := by
  unfold filesState
  rw [saveFilesLocal_doc]

theorem truthy_url_of_vercelEnv (e : Env) (h : isVercelEnvironment e = true) :
    truthy e.UPSTASH_REDIS_REST_URL = true := by
  unfold isVercelEnvironment at h
  exact Bool.and_elim_right h

theorem getAllFilesFromKV_notVercelEnv (w : World) (h : isVercelEnvironment w.env = false) :
    getAllFilesFromKV w =
      (.ok (getAllFilesLocal w).1, (getAllFilesLocal w).2.1, (getAllFilesLocal w).2.2) := by
  simp [getAllFilesFromKV, h]

theorem getAllFilesFromKV_redisDown (w : World) (h : isVercelEnvironment w.env = true)
    (hd : w.redisDown = true) :
    getAllFilesFromKV w =
      (.ok (getAllFilesLocal w).1, (getAllFilesLocal w).2.1, (getAllFilesLocal w).2.2) := by
  simp [getAllFilesFromKV, h, hd, truthy_url_of_vercelEnv w.env h]

theorem getAllFilesFromKV_remote (w : World) (h : isVercelEnvironment w.env = true)
    (hd : w.redisDown = false) :
    getAllFilesFromKV w = (.ok (kvFilesState w), w, []) := by
  simp [getAllFilesFromKV, h, hd, truthy_url_of_vercelEnv w.env h]

theorem saveFilesToKV_notVercelEnv (fl : List FileMetadata) (w : World)
    (h : isVercelEnvironment w.env = false) :
    saveFilesToKV fl w = (.ok (), (saveFilesLocal fl w).1, (saveFilesLocal fl w).2) := by
  simp [saveFilesToKV, h]

theorem saveFilesToKV_redisDown (fl : List FileMetadata) (w : World)
    (h : isVercelEnvironment w.env = true) (hd : w.redisDown = true) :
    saveFilesToKV fl w = (.ok (), (saveFilesLocal fl w).1, (saveFilesLocal fl w).2) := by
  simp [saveFilesToKV, h, hd, truthy_url_of_vercelEnv w.env h]

theorem saveFilesToKV_remote (fl : List FileMetadata) (w : World)
    (h : isVercelEnvironment w.env = true) (hd : w.redisDown = false) :
    saveFilesToKV fl w = (.ok (), setKv w FILES_KEY (.files fl), [.kvSet FILES_KEY]) := by
  simp [saveFilesToKV, h, hd, truthy_url_of_vercelEnv w.env h]

theorem saveFilesToKV_never_fails (fl : List FileMetadata) (w : World) :
    (saveFilesToKV fl w).1 = .ok () := by
  unfold saveFilesToKV
  by_cases h : isVercelEnvironment w.env
  · by_cases hu : truthy w.env.UPSTASH_REDIS_REST_URL
    · by_cases hd : w.redisDown <;> simp [h, hu, hd]
    · simp [h, hu]
  · simp [h]

theorem saveFilesToKV_effects (fl : List FileMetadata) (w : World) :
    ∀ e ∈ (saveFilesToKV fl w).2.2, (∃ k, e = .kvSet k) ∨ (∃ p, e = .fsWrite p) := by
  unfold saveFilesToKV saveFilesLocal ensureFilesDataFile
  by_cases h : isVercelEnvironment w.env
  · by_cases hu : truthy w.env.UPSTASH_REDIS_REST_URL
    · by_cases hd : w.redisDown
      · cases hf : w.fs FILES_DATA_FILE <;> simp [h, hu, hd, hf]
      · simp [h, hu, hd]
    · simp [h, hu]
  · cases hf : w.fs FILES_DATA_FILE <;> simp [h, hf]

/-! ## Fixtures for counterexamples and witnesses -/

/-- A managed-platform world with no remote credential at all and empty
stores. -/
def vercelBareWorld : World :=
  { env := { VERCEL := some "1" }
    kv := fun _ => none
    fs := fun _ => none
    blobs := fun _ => false }

/-- A managed-platform world with full Upstash and blob credentials whose
remote key-value store is failing. -/
def vercelRedisDownWorld : World :=
  { env := { VERCEL := some "1", UPSTASH_REDIS_REST_URL := some "https://kv.example",
             UPSTASH_REDIS_REST_TOKEN := some "tok", BLOB_READ_WRITE_TOKEN := some "blob" }
    kv := fun _ => none
    fs := fun _ => none
    blobs := fun _ => false
    redisDown := true }

/-- An environment holding a remote key-value URL without its token. -/
def urlOnlyEnv : Env := { UPSTASH_REDIS_REST_URL := some "https://kv.example" }

/-- Two creates observing the same clock instant. -/
def sameInstantCalls : List Call :=
  [.create 0 "A" none none none, .create 0 "B" none none none]

/-! ## Claims -/

/-- C3, counterexample: an environment holding a remote key-value URL without
its matching token is still reported as having a remote key-value
configuration (`hasRedisConfig` is true, so off-platform backend selection
`shouldUseRedis` picks the remote store), refuting the claim that such an
environment is classified as having no remote key-value store; only the
credential resolver `getRedisConfig` treats the pair as absent. -/
theorem C3_cex : hasRedisConfig urlOnlyEnv = true ∧ shouldUseRedis urlOnlyEnv = true ∧
    urlOnlyEnv.UPSTASH_REDIS_REST_TOKEN = none ∧ getRedisConfig urlOnlyEnv = none :=
  ⟨rfl, rfl, rfl, rfl⟩

/-- C3, amended: the credential resolver `getRedisConfig` yields a credential
pair exactly when a complete, matched set (URL and token of the same
credential family) is present — partial or crossed sets yield none — while the
availability flag `hasRedisConfig` reports the remote key-value store as
configured whenever either URL is present, even without its token. -/
theorem C3_amended (e : Env) :
    ((getRedisConfig e).isSome = true ↔
      (truthy e.KV_REST_API_URL = true ∧ truthy e.KV_REST_API_TOKEN = true) ∨
      (truthy e.UPSTASH_REDIS_REST_URL = true ∧ truthy e.UPSTASH_REDIS_REST_TOKEN = true)) ∧
    (hasRedisConfig e = true ↔
      (truthy e.UPSTASH_REDIS_REST_URL = true ∨ truthy e.KV_REST_API_URL = true)) := by
  constructor
  · unfold getRedisConfig
    by_cases h1 : truthy e.KV_REST_API_URL && truthy e.KV_REST_API_TOKEN
    · rw [if_pos h1]
      simp only [Option.isSome_some, true_iff]
      left
      exact ⟨Bool.and_elim_left h1, Bool.and_elim_right h1⟩
    · rw [if_neg h1]
      by_cases h2 : truthy e.UPSTASH_REDIS_REST_URL && truthy e.UPSTASH_REDIS_REST_TOKEN
      · rw [if_pos h2]
        simp only [Option.isSome_some, true_iff]
        right
        exact ⟨Bool.and_elim_left h2, Bool.and_elim_right h2⟩
      · rw [if_neg h2]
        simp only [Option.isSome_none]
        constructor
        · intro hc
          exact absurd hc (by decide)
        · intro hc
          rcases hc with ⟨ha, hb⟩ | ⟨ha, hb⟩
          · exact absurd (by rw [ha, hb]; rfl) h1
          · exact absurd (by rw [ha, hb]; rfl) h2
  · unfold hasRedisConfig
    constructor
    · intro hc
      exact Bool.or_eq_true_iff.mp hc
    · intro hc
      exact Bool.or_eq_true_iff.mpr hc

/-- C10: `isAdminServer` is total (no outcome of the cookie read makes it
throw) and returns true exactly when the cookie store was readable and the
admin-session cookie holds the value `authenticated`; every other case —
cookie absent, cookie holding another value, or the cookie read itself
failing — returns false. -/
theorem C10_isAdminServer (c : Except Unit (String → Option String)) :
    isAdminServer c = true ↔
      ∃ cookieStore, c = .ok cookieStore ∧
        cookieStore ADMIN_COOKIE_NAME = some "authenticated" := by
  cases c with
  | error e =>
    simp only [isAdminServer]
    constructor
    · intro h
      exact absurd h (by decide)
    · rintro ⟨store, hstore, _⟩
      cases hstore
  | ok store =>
    simp only [isAdminServer, beq_iff_eq]
    constructor
    · intro h
      exact ⟨store, rfl, h⟩
    · rintro ⟨s, hs, hv⟩
      cases hs
      exact hv

/-- C1, counterexample: on the managed platform with no remote key-value
credential at all, a files-collection read does not fail with the
configuration-missing error — it succeeds via the local backend and performs a
local filesystem write (creating the local files document); the same holds for
a files-collection write.  This refutes the claim for the files collection. -/
theorem C1_cex :
    isVercelPlatform vercelBareWorld.env = true ∧
    getRedisConfig vercelBareWorld.env = none ∧
    (getAllFilesFromKV vercelBareWorld).1 = .ok [] ∧
    (getAllFilesFromKV vercelBareWorld).2.2 = [Effect.fsWrite FILES_DATA_FILE] ∧
    (saveFilesToKV [] vercelBareWorld).1 = .ok () ∧
    (saveFilesToKV [] vercelBareWorld).2.2 =
      [Effect.fsWrite FILES_DATA_FILE, Effect.fsWrite FILES_DATA_FILE] :=
  ⟨rfl, rfl, rfl, rfl, rfl, rfl⟩

/-- C1, amended: on a managed-platform classification with no remote
key-value credentials, every projects-collection operation fails with the
configuration-missing error, leaves the world untouched and performs no
filesystem write; the files-collection operations do not fail — whenever the
blob/redis pair of the files module is not fully configured they silently use
the local file backend instead (read returning the local document, write
replacing it). -/
theorem C1_amended :
    (∀ w : World, isVercelPlatform w.env = true → getRedisConfig w.env = none →
      getAllProjectsFromKV w = (.error .configMissing, w, []) ∧
      ∀ ps, saveProjectsToKV ps w = (.error .configMissing, w, [])) ∧
    (∀ w : World, isVercelEnvironment w.env = false →
      (getAllFilesFromKV w).1 = .ok (filesState w) ∧
      ∀ fl, (saveFilesToKV fl w).1 = .ok () ∧
        filesState (saveFilesToKV fl w).2.1 = fl) := by
  constructor
  · intro w hp hc
    have hs : shouldUseRedis w.env = true := by
      simp [shouldUseRedis, hp]
    constructor
    · simp [getAllProjectsFromKV, hs, hc, hp]
    · intro ps
      simp [saveProjectsToKV, hs, hc, hp]
  · intro w hv
    refine ⟨?_, ?_⟩
    · rw [getAllFilesFromKV_notVercelEnv w hv, getAllFilesLocal_fst]
    · intro fl
      rw [saveFilesToKV_notVercelEnv fl w hv]
      exact ⟨rfl, saveFilesLocal_state fl _⟩

/-- C1, witness: the amended claim evaluated on the bare managed world — the
projects read fails with the configuration error while the files read
succeeds with the (empty) local collection. -/
theorem C1_witness :
    (getAllProjectsFromKV vercelBareWorld = (.error .configMissing, vercelBareWorld, []) ∧
      ∀ ps, saveProjectsToKV ps vercelBareWorld = (.error .configMissing, vercelBareWorld, [])) ∧
    ((getAllFilesFromKV vercelBareWorld).1 = .ok (filesState vercelBareWorld) ∧
      ∀ fl, (saveFilesToKV fl vercelBareWorld).1 = .ok () ∧
        filesState (saveFilesToKV fl vercelBareWorld).2.1 = fl) :=
  ⟨C1_amended.1 vercelBareWorld rfl rfl, C1_amended.2 vercelBareWorld rfl⟩

/-- C2, counterexample: on the managed platform with full credentials and the
remote key-value store failing, a files-collection read does not propagate the
failure — it succeeds via the local fallback (and a files-collection write
also reports success), refuting the no-fallback half of the claim for the
files collection. -/
theorem C2_cex :
    isVercelPlatform vercelRedisDownWorld.env = true ∧
    (getRedisConfig vercelRedisDownWorld.env).isSome = true ∧
    vercelRedisDownWorld.redisDown = true ∧
    (getAllFilesFromKV vercelRedisDownWorld).1 = .ok [] ∧
    (saveFilesToKV [] vercelRedisDownWorld).1 = .ok () :=
  ⟨rfl, rfl, rfl, rfl, rfl⟩

/-- C2, amended: when the remote key-value backend fails, the
projects-collection operations behave as claimed — on a managed platform the
failure propagates unchanged with no fallback effect, off the managed platform
the call falls back to the local file backend, and backend selection is a
pure function of the current environment (a later call with the backend
restored reads the remote value again, so no fallback state sticks) — but the
files-collection operations fall back to the local file backend on every
remote failure, managed platform or not. -/
theorem C2_amended :
    (∀ w : World, isVercelPlatform w.env = true → (getRedisConfig w.env).isSome = true →
      w.redisDown = true →
      getAllProjectsFromKV w = (.error .backendUnavailable, w, []) ∧
      ∀ ps, saveProjectsToKV ps w = (.error .backendUnavailable, w, [])) ∧
    (∀ w : World, isVercelPlatform w.env = false → (getRedisConfig w.env).isSome = true →
      w.redisDown = true →
      (getAllProjectsFromKV w).1 = .ok (projectsState w) ∧
      ∀ ps, (saveProjectsToKV ps w).1 = .ok () ∧
        projectsState (saveProjectsToKV ps w).2.1 = ps) ∧
    (∀ w : World, isVercelEnvironment w.env = true → w.redisDown = true →
      (getAllFilesFromKV w).1 = .ok (filesState w) ∧
      ∀ fl, (saveFilesToKV fl w).1 = .ok () ∧
        filesState (saveFilesToKV fl w).2.1 = fl) ∧
    (∀ w : World, (getRedisConfig w.env).isSome = true → w.redisDown = false →
      getAllProjectsFromKV w = (.ok (kvProjectsState w), w, [])) := by
  refine ⟨?_, ?_, ?_, ?_⟩
  · intro w hp hc hd
    have hs : shouldUseRedis w.env = true := shouldUseRedis_of_config w.env hc
    obtain ⟨c, hcfg⟩ := Option.isSome_iff_exists.mp hc
    constructor
    · simp [getAllProjectsFromKV, hs, hcfg, hd, hp]
    · intro ps
      simp [saveProjectsToKV, hs, hcfg, hd, hp]
  · intro w hp hc hd
    have hs : shouldUseRedis w.env = true := shouldUseRedis_of_config w.env hc
    obtain ⟨c, hcfg⟩ := Option.isSome_iff_exists.mp hc
    refine ⟨?_, ?_⟩
    · simp [getAllProjectsFromKV, hs, hcfg, hd, hp, getAllProjectsLocal_fst]
    · intro ps
      refine ⟨?_, ?_⟩
      · simp [saveProjectsToKV, hs, hcfg, hd, hp]
      · simp [saveProjectsToKV, hs, hcfg, hd, hp, saveProjectsLocal_state]
  · intro w hv hd
    refine ⟨?_, ?_⟩
    · rw [getAllFilesFromKV_redisDown w hv hd, getAllFilesLocal_fst]
    · intro fl
      rw [saveFilesToKV_redisDown fl w hv hd]
      exact ⟨rfl, saveFilesLocal_state fl _⟩
  · intro w hc hd
    have hs : shouldUseRedis w.env = true := shouldUseRedis_of_config w.env hc
    obtain ⟨c, hcfg⟩ := Option.isSome_iff_exists.mp hc
    simp [getAllProjectsFromKV, hs, hcfg, hd]

/-- C2, witness: the amended claim evaluated on concrete worlds — the managed
failing world propagates the failure for projects and falls back locally for
files; a local-host failing world falls back locally for projects; and the
managed world with the backend restored serves the remote value again. -/
theorem C2_witness :
    (getAllProjectsFromKV vercelRedisDownWorld =
      (.error .backendUnavailable, vercelRedisDownWorld, []) ∧
     ∀ ps, saveProjectsToKV ps vercelRedisDownWorld =
      (.error .backendUnavailable, vercelRedisDownWorld, [])) ∧
    ((getAllFilesFromKV vercelRedisDownWorld).1 = .ok (filesState vercelRedisDownWorld) ∧
     ∀ fl, (saveFilesToKV fl vercelRedisDownWorld).1 = .ok () ∧
       filesState (saveFilesToKV fl vercelRedisDownWorld).2.1 = fl) ∧
    ((getAllProjectsFromKV { vercelRedisDownWorld with env.VERCEL := none }).1 =
      .ok (projectsState { vercelRedisDownWorld with env.VERCEL := none })) ∧
    (getAllProjectsFromKV { vercelRedisDownWorld with redisDown := false } =
      (.ok (kvProjectsState { vercelRedisDownWorld with redisDown := false }),
       { vercelRedisDownWorld with redisDown := false }, [])) :=
  ⟨C2_amended.1 vercelRedisDownWorld rfl rfl rfl,
   C2_amended.2.2.1 vercelRedisDownWorld rfl rfl,
   (C2_amended.2.1 { vercelRedisDownWorld with env.VERCEL := none } rfl rfl rfl).1,
   C2_amended.2.2.2 { vercelRedisDownWorld with redisDown := false } rfl rfl⟩

/-- C4, counterexample: the generated id is the creation instant rendered in
decimal, so two `createProject` calls observing the same clock instant
(`Date.now()` has millisecond resolution) produce two records with the same
id — a reachable collection state violating id uniqueness. -/
theorem C4_cex :
    (projectsState (runCalls sameInstantCalls initialWorld)).map (fun p => p.id)
      = ["0", "0"] ∧
    ¬ ((projectsState (runCalls sameInstantCalls initialWorld)).map
        (fun p => p.id)).Nodup := by
  refine ⟨rfl, ?_⟩
  intro h
  rw [show (projectsState (runCalls sameInstantCalls initialWorld)).map (fun p => p.id)
      = ["0", "0"] from rfl] at h
  simp at h

/-- C4, amended: for every sequence of `createProject`/`updateProject` calls
starting from the empty collection, if the clock instants observed by the
create calls are pairwise distinct, then no two records of the resulting
collection share an id. -/
theorem C4_amended (cs : List Call) (h : (createTimes cs).Nodup) :
    ((projectsState (runCalls cs initialWorld)).map (fun p => p.id)).Nodup := by
  have hlocal : shouldUseRedis initialWorld.env = false := rfl
  rw [runCalls_local_ids cs initialWorld hlocal]
  have hempty : projectsState initialWorld = [] := rfl
  rw [hempty]
  simpa using h.map natRepr_injective

/-- C4, witness: a two-create sequence with distinct instants yields a
duplicate-free id list. -/
theorem C4_witness :
    ((projectsState (runCalls
        [.create 0 "A" none none none, .create 1 "B" none none none]
        initialWorld)).map (fun p => p.id)).Nodup :=
  C4_amended [.create 0 "A" none none none, .create 1 "B" none none none] (by decide)

/-- C5: whenever `createProject` returns a record, that record carries the
generated id (the call instant rendered in decimal, never the empty string),
the given name, and equal creation and update timestamps. -/
theorem C5_createProject_fields (w : World) (now : Nat) (name : String)
    (d m s : Option String) (p : Project)
    (h : (createProject w now name d m s).1 = .ok p) :
    p.id = toString now ∧ p.id ≠ "" ∧ p.name = name ∧ p.createdAt = p.updatedAt := by
  unfold createProject at h
  split at h
  · simp at h
  · dsimp only at h
    split at h
    · simp at h
    · simp only [Except.ok.injEq] at h
      subst h
      refine ⟨rfl, ?_, rfl, rfl⟩
      show toString now ≠ ""
      rw [toString_nat_eq]
      exact natRepr_ne_empty now

/-- C5, witness: a concrete create on an empty local collection. -/
theorem C5_witness :
    (mkProject 5 "Thesis" none none none).id = toString 5 ∧
    (mkProject 5 "Thesis" none none none).id ≠ "" ∧
    (mkProject 5 "Thesis" none none none).name = "Thesis" ∧
    (mkProject 5 "Thesis" none none none).createdAt =
      (mkProject 5 "Thesis" none none none).updatedAt :=
  C5_createProject_fields (localWorld []) 5 "Thesis" none none none
    (mkProject 5 "Thesis" none none none) rfl

/-- A stored record used by witnesses. -/
def p1 : Project := { id := "1", name := "Alpha", createdAt := 0, updatedAt := 0 }

/-- A second stored record used by witnesses. -/
def p2 : Project :=
  { id := "2", name := "Beta", description := some "d", createdAt := 1, updatedAt := 1 }

/-- A partial update touching only the name. -/
def u1 : ProjectUpdates := { name := some "Beta v2" }

theorem ensureDataDir_redisDown (w : World) :
    (ensureDataDir w).1.redisDown = w.redisDown := by
  unfold ensureDataDir
  cases w.fs PROJECTS_FILE <;> rfl

theorem getAllProjectsLocal_redisDown (w : World) :
    (getAllProjectsLocal w).2.1.redisDown = w.redisDown := by
  unfold getAllProjectsLocal
  cases h : (ensureDataDir w).1.fs PROJECTS_FILE with
  | none => simpa using ensureDataDir_redisDown w
  | some v => cases v <;> simpa using ensureDataDir_redisDown w

theorem setKv_redisDown (w : World) (k : String) (v : StoreVal) :
    (setKv w k v).redisDown = w.redisDown := rfl

/-- The project collection currently readable from the remote key, after
replacing it. -/
theorem kvProjectsState_setKv (w : World) (ps : List Project) :
    kvProjectsState (setKv w PROJECTS_KEY (.projects ps)) = ps := by
  simp [kvProjectsState, setKv]

/-- A general-purpose-host world with full remote credentials whose healthy
remote store holds two project records. -/
def remoteProjectsWorld : World :=
  { env := { UPSTASH_REDIS_REST_URL := some "https://kv.example",
             UPSTASH_REDIS_REST_TOKEN := some "tok",
             BLOB_READ_WRITE_TOKEN := some "blob" }
    kv := fun k => if k = PROJECTS_KEY then some (.projects [p1, p2]) else none
    fs := fun _ => none
    blobs := fun _ => false }

/-- A general-purpose-host world with remote credentials and a failing remote
store, whose local project document holds two records. -/
def fallbackWorld : World :=
  { env := { UPSTASH_REDIS_REST_URL := some "https://kv.example",
             UPSTASH_REDIS_REST_TOKEN := some "tok" }
    kv := fun _ => none
    fs := fun q => if q = PROJECTS_FILE then some (.projectsDoc [p1, p2]) else none
    blobs := fun _ => false
    redisDown := true }

/-- C6: updating an existing id merges exactly the named fields, refreshes
`updatedAt`, preserves `id`, `createdAt` and every unnamed field, stores the
collection with only position `i` replaced, and leaves every other position
(hence every record with another id) unchanged — on every backend path that
completes the call: the local-file backend, the healthy remote key-value
backend (the stored collection then being the one under the remote key), and
the single-call local fallback taken on remote failure off the managed
platform. -/
theorem C6_updateProject_frame :
    (∀ (old : Project) (u : ProjectUpdates) (now : Nat),
      (applyUpdates old u now).id = old.id ∧
      (applyUpdates old u now).createdAt = old.createdAt ∧
      (applyUpdates old u now).updatedAt = now ∧
      (applyUpdates old u now).name = u.name.getD old.name ∧
      (applyUpdates old u now).description = u.description.getD old.description ∧
      (applyUpdates old u now).moduleName = u.moduleName.getD old.moduleName ∧
      (applyUpdates old u now).supervisorName = u.supervisorName.getD old.supervisorName) ∧
    (∀ (w : World) (now : Nat) (id : String) (u : ProjectUpdates) (i : Nat) (old : Project),
      shouldUseRedis w.env = false →
      (projectsState w).findIdx? (fun p => p.id == id) = some i →
      (projectsState w)[i]? = some old →
      (updateProject w now id u).1 = .ok (some (applyUpdates old u now)) ∧
      projectsState (updateProject w now id u).2.1 =
        (projectsState w).set i (applyUpdates old u now) ∧
      ∀ j, j ≠ i →
        ((projectsState w).set i (applyUpdates old u now))[j]? = (projectsState w)[j]?) ∧
    (∀ (w : World) (now : Nat) (id : String) (u : ProjectUpdates) (i : Nat) (old : Project),
      (getRedisConfig w.env).isSome = true → w.redisDown = false →
      (kvProjectsState w).findIdx? (fun p => p.id == id) = some i →
      (kvProjectsState w)[i]? = some old →
      (updateProject w now id u).1 = .ok (some (applyUpdates old u now)) ∧
      kvProjectsState (updateProject w now id u).2.1 =
        (kvProjectsState w).set i (applyUpdates old u now) ∧
      ∀ j, j ≠ i →
        ((kvProjectsState w).set i (applyUpdates old u now))[j]? = (kvProjectsState w)[j]?) ∧
    (∀ (w : World) (now : Nat) (id : String) (u : ProjectUpdates) (i : Nat) (old : Project),
      isVercelPlatform w.env = false → (getRedisConfig w.env).isSome = true →
      w.redisDown = true →
      (projectsState w).findIdx? (fun p => p.id == id) = some i →
      (projectsState w)[i]? = some old →
      (updateProject w now id u).1 = .ok (some (applyUpdates old u now)) ∧
      projectsState (updateProject w now id u).2.1 =
        (projectsState w).set i (applyUpdates old u now) ∧
      ∀ j, j ≠ i →
        ((projectsState w).set i (applyUpdates old u now))[j]? = (projectsState w)[j]?) := by
  refine ⟨?_, ?_, ?_, ?_⟩
  · intro old u now
    exact ⟨rfl, rfl, rfl, rfl, rfl, rfl, rfl⟩
  · intro w now id u i old hlocal hfind hget
    have h1 : shouldUseRedis (getAllProjectsLocal w).2.1.env = false := by
      rw [getAllProjectsLocal_env]; exact hlocal
    refine ⟨?_, ?_, ?_⟩
    · simp only [updateProject, getAllProjectsFromKV_local w hlocal,
        getAllProjectsLocal_fst, hfind, hget, saveProjectsToKV_local _ _ h1]
    · simp only [updateProject, getAllProjectsFromKV_local w hlocal,
        getAllProjectsLocal_fst, hfind, hget, saveProjectsToKV_local _ _ h1]
      exact saveProjectsLocal_state _ _
    · intro j hj
      exact List.getElem?_set_ne (Ne.symm hj)
  · intro w now id u i old hc hd hfind hget
    obtain ⟨c, hcfg⟩ := Option.isSome_iff_exists.mp hc
    have hs : shouldUseRedis w.env = true := shouldUseRedis_of_config w.env hc
    have hgall : getAllProjectsFromKV w = (.ok (kvProjectsState w), w, []) := by
      simp [getAllProjectsFromKV, hs, hcfg, hd]
    have hsall : saveProjectsToKV ((kvProjectsState w).set i (applyUpdates old u now)) w =
        (.ok (),
         setKv w PROJECTS_KEY
           (.projects ((kvProjectsState w).set i (applyUpdates old u now))),
         [.kvSet PROJECTS_KEY]) := by
      simp [saveProjectsToKV, hs, hcfg, hd]
    refine ⟨?_, ?_, ?_⟩
    · simp only [updateProject, hgall, hfind, hget, hsall]
    · simp only [updateProject, hgall, hfind, hget, hsall]
      exact kvProjectsState_setKv _ _
    · intro j hj
      exact List.getElem?_set_ne (Ne.symm hj)
  · intro w now id u i old hp hc hd hfind hget
    obtain ⟨c, hcfg⟩ := Option.isSome_iff_exists.mp hc
    have hs : shouldUseRedis w.env = true := shouldUseRedis_of_config w.env hc
    have hgall : getAllProjectsFromKV w =
        (.ok (getAllProjectsLocal w).1, (getAllProjectsLocal w).2.1,
         (getAllProjectsLocal w).2.2) := by
      simp [getAllProjectsFromKV, hs, hcfg, hd, hp]
    have hp1 : isVercelPlatform (getAllProjectsLocal w).2.1.env = false := by
      rw [getAllProjectsLocal_env]; exact hp
    have hc1 : getRedisConfig (getAllProjectsLocal w).2.1.env = some c := by
      rw [getAllProjectsLocal_env]; exact hcfg
    have hs1 : shouldUseRedis (getAllProjectsLocal w).2.1.env = true := by
      rw [getAllProjectsLocal_env]; exact hs
    have hd1 : (getAllProjectsLocal w).2.1.redisDown = true := by
      rw [getAllProjectsLocal_redisDown]; exact hd
    have hsall : saveProjectsToKV ((projectsState w).set i (applyUpdates old u now))
        (getAllProjectsLocal w).2.1 =
        (.ok (),
         (saveProjectsLocal ((projectsState w).set i (applyUpdates old u now))
           (getAllProjectsLocal w).2.1).1,
         (saveProjectsLocal ((projectsState w).set i (applyUpdates old u now))
           (getAllProjectsLocal w).2.1).2) := by
      simp [saveProjectsToKV, hs1, hc1, hd1, hp1]
    refine ⟨?_, ?_, ?_⟩
    · simp only [updateProject, hgall, getAllProjectsLocal_fst, hfind, hget, hsall]
    · simp only [updateProject, hgall, getAllProjectsLocal_fst, hfind, hget, hsall]
      exact saveProjectsLocal_state _ _
    · intro j hj
      exact List.getElem?_set_ne (Ne.symm hj)

/-- C6, witness: updating the name of the second of two stored records — on
the local backend, on the healthy remote backend, and through the local
fallback of a failing remote on a general-purpose host. -/
theorem C6_witness :
    ((applyUpdates p2 u1 9).id = "2" ∧
     (applyUpdates p2 u1 9).createdAt = p2.createdAt ∧
     (applyUpdates p2 u1 9).updatedAt = 9 ∧
     (applyUpdates p2 u1 9).name = "Beta v2" ∧
     (applyUpdates p2 u1 9).description = some "d") ∧
    ((updateProject (localWorld [p1, p2]) 9 "2" u1).1 = .ok (some (applyUpdates p2 u1 9)) ∧
     projectsState (updateProject (localWorld [p1, p2]) 9 "2" u1).2.1 =
       [p1, p2].set 1 (applyUpdates p2 u1 9) ∧
     ([p1, p2].set 1 (applyUpdates p2 u1 9))[0]? = some p1) ∧
    ((updateProject remoteProjectsWorld 9 "2" u1).1 = .ok (some (applyUpdates p2 u1 9)) ∧
     kvProjectsState (updateProject remoteProjectsWorld 9 "2" u1).2.1 =
       [p1, p2].set 1 (applyUpdates p2 u1 9) ∧
     ([p1, p2].set 1 (applyUpdates p2 u1 9))[0]? = some p1) ∧
    ((updateProject fallbackWorld 9 "2" u1).1 = .ok (some (applyUpdates p2 u1 9)) ∧
     projectsState (updateProject fallbackWorld 9 "2" u1).2.1 =
       [p1, p2].set 1 (applyUpdates p2 u1 9)) := by
  have Hf := C6_updateProject_frame.1 p2 u1 9
  have Hl := C6_updateProject_frame.2.1 (localWorld [p1, p2]) 9 "2" u1 1 p2 rfl rfl rfl
  have Hr := C6_updateProject_frame.2.2.1 remoteProjectsWorld 9 "2" u1 1 p2 rfl rfl rfl rfl
  have Hb := C6_updateProject_frame.2.2.2 fallbackWorld 9 "2" u1 1 p2 rfl rfl rfl rfl rfl
  exact ⟨⟨Hf.1, Hf.2.1, Hf.2.2.1, Hf.2.2.2.1, Hf.2.2.2.2.1⟩,
    ⟨Hl.1, Hl.2.1, Hl.2.2 0 (by decide)⟩,
    ⟨Hr.1, Hr.2.1, Hr.2.2 0 (by decide)⟩,
    ⟨Hb.1, Hb.2.1⟩⟩

/-- C7: when the collection is already initialized (the read mutates nothing)
and no stored record carries the requested id, `updateProject` returns the
not-found signal `none` — distinguishable from an `Except.error` — leaves the
world exactly as it was and performs no mutating effect at all (in particular
no `writeAll`). -/
theorem C7_update_notfound (w : World) (now : Nat) (id : String) (u : ProjectUpdates)
    (ps : List Project)
    (hget : getAllProjectsFromKV w = (.ok ps, w, []))
    (hfind : ps.findIdx? (fun p => p.id == id) = none) :
    updateProject w now id u = (.ok none, w, []) := by
  simp only [updateProject, hget, hfind]

/-- C7, witness: updating an absent id on a one-record local collection. -/
theorem C7_witness :
    updateProject (localWorld [p1]) 7 "zzz" {} = (.ok none, localWorld [p1], []) :=
  C7_update_notfound (localWorld [p1]) 7 "zzz" {} [p1] rfl rfl

theorem kvFilesState_setKv (w : World) (fl : List FileMetadata) :
    kvFilesState (setKv w FILES_KEY (.files fl)) = fl := by
  simp [kvFilesState, setKv]

/-- A file-metadata record used by fixtures, carrying a blob url. -/
def fm1 : FileMetadata :=
  { id := "10", projectId := "1", categoryId := "lecture-notes", filename := "notes.pdf",
    originalName := "My Notes.pdf", size := 4, mimeType := "application/pdf",
    uploadedAt := 3, blobUrl := some "https://blob.example/notes.pdf" }

/-- A general-purpose-host world with full remote credentials, a healthy
remote store holding one record under each collection key, and empty local
storage. -/
def remoteWorld : World :=
  { env := { UPSTASH_REDIS_REST_URL := some "https://kv.example",
             UPSTASH_REDIS_REST_TOKEN := some "tok",
             BLOB_READ_WRITE_TOKEN := some "blob" }
    kv := fun k => if k = FILES_KEY then some (.files [fm1]) else none
    fs := fun _ => none
    blobs := fun u => u = "https://blob.example/notes.pdf"}

/-- C8: `writeAll` immediately followed by `readAll` of the same collection on
the same backend returns the written sequence — for the local backend and the
remote backend, for the projects collection and the files collection alike. -/
theorem C8_roundtrip :
    (∀ (w : World) (ps : List Project), shouldUseRedis w.env = false →
      (getAllProjectsFromKV (saveProjectsToKV ps w).2.1).1 = .ok ps) ∧
    (∀ (w : World) (ps : List Project), (getRedisConfig w.env).isSome = true →
      w.redisDown = false →
      (getAllProjectsFromKV (saveProjectsToKV ps w).2.1).1 = .ok ps) ∧
    (∀ (w : World) (fl : List FileMetadata), isVercelEnvironment w.env = false →
      (getAllFilesFromKV (saveFilesToKV fl w).2.1).1 = .ok fl) ∧
    (∀ (w : World) (fl : List FileMetadata), isVercelEnvironment w.env = true →
      w.redisDown = false →
      (getAllFilesFromKV (saveFilesToKV fl w).2.1).1 = .ok fl) := by
  refine ⟨?_, ?_, ?_, ?_⟩
  · intro w ps h
    rw [saveProjectsToKV_local ps w h]
    have h1 : shouldUseRedis (saveProjectsLocal ps w).1.env = false := by
      rw [saveProjectsLocal_env]; exact h
    rw [getAllProjectsFromKV_local _ h1, getAllProjectsLocal_fst, saveProjectsLocal_state]
  · intro w ps hc hd
    have hs : shouldUseRedis w.env = true := shouldUseRedis_of_config w.env hc
    obtain ⟨c, hcfg⟩ := Option.isSome_iff_exists.mp hc
    have hsv : saveProjectsToKV ps w =
        (.ok (), setKv w PROJECTS_KEY (.projects ps), [.kvSet PROJECTS_KEY]) := by
      simp [saveProjectsToKV, hs, hcfg, hd]
    rw [hsv]
    simp [getAllProjectsFromKV, setKv_env, setKv_redisDown, hs, hcfg, hd,
      kvProjectsState_setKv]
  · intro w fl h
    rw [saveFilesToKV_notVercelEnv fl w h]
    have h1 : isVercelEnvironment (saveFilesLocal fl w).1.env = false := by
      rw [saveFilesLocal_env]; exact h
    rw [getAllFilesFromKV_notVercelEnv _ h1, getAllFilesLocal_fst, saveFilesLocal_state]
  · intro w fl hv hd
    rw [saveFilesToKV_remote fl w hv hd]
    have h1 : isVercelEnvironment (setKv w FILES_KEY (.files fl)).env = true := by
      rw [setKv_env]; exact hv
    have h2 : (setKv w FILES_KEY (.files fl)).redisDown = false := by
      rw [setKv_redisDown]; exact hd
    rw [getAllFilesFromKV_remote _ h1 h2, kvFilesState_setKv]

/-- C8, witness: concrete round trips — both collections through the local
backend of an empty general-purpose host, and both through the healthy remote
backend. -/
theorem C8_witness :
    (getAllProjectsFromKV (saveProjectsToKV [p1] (localWorld [])).2.1).1 = .ok [p1] ∧
    (getAllProjectsFromKV (saveProjectsToKV [p1, p2] remoteWorld).2.1).1 = .ok [p1, p2] ∧
    (getAllFilesFromKV (saveFilesToKV [fm1] (localWorld [])).2.1).1 = .ok [fm1] ∧
    (getAllFilesFromKV (saveFilesToKV [fm1] remoteWorld).2.1).1 = .ok [fm1] :=
  ⟨C8_roundtrip.1 (localWorld []) [p1] rfl,
   C8_roundtrip.2.1 remoteWorld [p1, p2] rfl rfl,
   C8_roundtrip.2.2.1 (localWorld []) [fm1] rfl,
   C8_roundtrip.2.2.2 remoteWorld [fm1] rfl rfl⟩

theorem getFilePath_ne (pid cid fn : String) : getFilePath pid cid fn ≠ FILES_DATA_FILE := by
  intro h
  have hd : (getFilePath pid cid fn).data.head? = FILES_DATA_FILE.data.head? := by rw [h]
  have h1 : (getFilePath pid cid fn).data.head? = some 'u' := rfl
  have h2 : FILES_DATA_FILE.data.head? = some 'd' := rfl
  rw [h1, h2] at hd
  simp at hd

theorem getAllFilesLocal_fs_other (w : World) (p : String) (hp : p ≠ FILES_DATA_FILE) :
    (getAllFilesLocal w).2.1.fs p = w.fs p := by
  unfold getAllFilesLocal
  have hens : (ensureFilesDataFile w).1.fs p = w.fs p := by
    unfold ensureFilesDataFile
    cases hf : w.fs FILES_DATA_FILE <;> simp [setFs, hp]
  cases h : (ensureFilesDataFile w).1.fs FILES_DATA_FILE with
  | none => simpa using hens
  | some v => cases v <;> simpa using hens

theorem deleteContentStep_local_missing (w1 : World) (fm : Option FileMetadata)
    (pid cid fn : String) (hv : isVercelEnvironment w1.env = false)
    (hfs : w1.fs (getFilePath pid cid fn) = none) :
    deleteContentStep w1 fm pid cid fn = (w1, []) := by
  unfold deleteContentStep
  simp [hv, hfs]

theorem deleteContentStep_delFails (w1 : World) (fm : Option FileMetadata)
    (pid cid fn : String) (hv : isVercelEnvironment w1.env = true)
    (hbf : w1.blobDelFails = true) :
    deleteContentStep w1 fm pid cid fn = (w1, []) := by
  unfold deleteContentStep
  by_cases hb : metadataHasBlobUrl fm <;> simp [hb, hv, hbf]

theorem deleteContentStep_effects (w1 : World) (fm : Option FileMetadata)
    (pid cid fn : String) :
    ∀ e ∈ (deleteContentStep w1 fm pid cid fn).2,
      (∃ u, e = Effect.blobDelete u) ∨ (∃ q, e = Effect.fsUnlink q) := by
  unfold deleteContentStep
  by_cases h1 : metadataHasBlobUrl fm && isVercelEnvironment w1.env
  · by_cases h2 : w1.blobDelFails <;> simp [h1, h2]
  · by_cases h3 : isVercelEnvironment w1.env
    · have hb : metadataHasBlobUrl fm = false := by
        revert h1
        simp [h3]
      simp [hb, h3]
    · cases hf : w1.fs (getFilePath pid cid fn) <;> simp [h1, h3, hf]

/-- C9: `deleteFile` deletes the blob content first and rewrites the metadata
collection second (every mutating effect of the content phase precedes every
mutating effect of the metadata phase), and a content-already-gone condition
is tolerated: with the local content file absent, or the remote blob delete
failing, the call still succeeds and the rewritten collection holds no record
matching the key. -/
theorem C9_deleteFile :
    (∀ (w : World) (pid cid fn : String), isVercelEnvironment w.env = false →
      w.fs (getFilePath pid cid fn) = none →
      (deleteFile w pid cid fn).1 = .ok () ∧
      filesState (deleteFile w pid cid fn).2.1 =
        (filesState w).filter (fun f => !(fileKeyMatches pid cid fn f)) ∧
      ∀ f ∈ filesState (deleteFile w pid cid fn).2.1,
        fileKeyMatches pid cid fn f = false) ∧
    (∀ (w : World) (pid cid fn : String), isVercelEnvironment w.env = true →
      w.redisDown = false → w.blobDelFails = true →
      deleteFile w pid cid fn =
        (.ok (),
         setKv w FILES_KEY
           (.files ((kvFilesState w).filter (fun f => !(fileKeyMatches pid cid fn f)))),
         [.kvSet FILES_KEY])) ∧
    (∀ (w : World) (pid cid fn : String) (fl : List FileMetadata),
      getAllFilesFromKV w = (.ok fl, w, []) →
      ∃ c m, (deleteFile w pid cid fn).2.2 = c ++ m ∧
        (∀ e ∈ c, (∃ u, e = Effect.blobDelete u) ∨ (∃ q, e = Effect.fsUnlink q)) ∧
        (∀ e ∈ m, (∃ k, e = Effect.kvSet k) ∨ (∃ q, e = Effect.fsWrite q))) := by
  refine ⟨?_, ?_, ?_⟩
  · intro w pid cid fn hv hfs
    have hv1 : isVercelEnvironment (getAllFilesLocal w).2.1.env = false := by
      rw [getAllFilesLocal_env]; exact hv
    have hfs1 : (getAllFilesLocal w).2.1.fs (getFilePath pid cid fn) = none := by
      rw [getAllFilesLocal_fs_other w _ (getFilePath_ne pid cid fn)]; exact hfs
    have hstep := deleteContentStep_local_missing (getAllFilesLocal w).2.1
      (((getAllFilesLocal w).1).find? (fileKeyMatches pid cid fn)) pid cid fn hv1 hfs1
    simp only [deleteFile, getAllFilesFromKV_notVercelEnv w hv, hstep,
      saveFilesToKV_notVercelEnv _ _ hv1]
    refine ⟨by trivial, ?_, ?_⟩
    · rw [saveFilesLocal_state, getAllFilesLocal_fst]
    · intro f hf
      rw [saveFilesLocal_state] at hf
      have := List.of_mem_filter hf
      simpa using this
  · intro w pid cid fn hv hd hbf
    have hstep := deleteContentStep_delFails w
      ((kvFilesState w).find? (fileKeyMatches pid cid fn)) pid cid fn hv hbf
    simp only [deleteFile, getAllFilesFromKV_remote w hv hd, hstep,
      saveFilesToKV_remote _ _ hv hd]
    rfl
  · intro w pid cid fn fl hget
    have hok := saveFilesToKV_never_fails
      (fl.filter (fun f => !(fileKeyMatches pid cid fn f)))
      (deleteContentStep w (fl.find? (fileKeyMatches pid cid fn)) pid cid fn).1
    have heff := saveFilesToKV_effects
      (fl.filter (fun f => !(fileKeyMatches pid cid fn f)))
      (deleteContentStep w (fl.find? (fileKeyMatches pid cid fn)) pid cid fn).1
    rcases hS : saveFilesToKV (fl.filter (fun f => !(fileKeyMatches pid cid fn f)))
        (deleteContentStep w (fl.find? (fileKeyMatches pid cid fn)) pid cid fn).1
      with ⟨r, w3, e3⟩
    rw [hS] at hok heff
    simp only at hok
    subst hok
    refine ⟨(deleteContentStep w (fl.find? (fileKeyMatches pid cid fn)) pid cid fn).2,
      e3, ?_, deleteContentStep_effects _ _ _ _ _, heff⟩
    simp only [deleteFile, hget]
    rw [hS]
    rfl

/-- A general-purpose-host world whose local files document holds one record
and whose uploads directory is empty (the content is already gone). -/
def localFilesWorld : World :=
  { env := emptyEnv
    kv := fun _ => none
    fs := fun q => if q = FILES_DATA_FILE then some (.filesDoc [fm1]) else none
    blobs := fun _ => false }

/-- The healthy remote world with the blob delete failing. -/
def remoteDelFailWorld : World := { remoteWorld with blobDelFails := true }

/-- C9, witness: deleting the record whose local content file is absent still
succeeds and filters it out of the stored collection; deleting under a failing
remote blob delete still rewrites the remote collection; and the effect trace
splits into a content phase followed by a metadata phase. -/
theorem C9_witness :
    ((deleteFile localFilesWorld "1" "lecture-notes" "notes.pdf").1 = .ok () ∧
     filesState (deleteFile localFilesWorld "1" "lecture-notes" "notes.pdf").2.1 =
       (filesState localFilesWorld).filter
         (fun f => !(fileKeyMatches "1" "lecture-notes" "notes.pdf" f))) ∧
    deleteFile remoteDelFailWorld "1" "lecture-notes" "notes.pdf" =
      (.ok (),
       setKv remoteDelFailWorld FILES_KEY
         (.files ((kvFilesState remoteDelFailWorld).filter
           (fun f => !(fileKeyMatches "1" "lecture-notes" "notes.pdf" f)))),
       [.kvSet FILES_KEY]) ∧
    (∃ c m, (deleteFile localFilesWorld "1" "lecture-notes" "notes.pdf").2.2 = c ++ m ∧
      (∀ e ∈ c, (∃ u, e = Effect.blobDelete u) ∨ (∃ q, e = Effect.fsUnlink q)) ∧
      (∀ e ∈ m, (∃ k, e = Effect.kvSet k) ∨ (∃ q, e = Effect.fsWrite q))) :=
  ⟨⟨(C9_deleteFile.1 localFilesWorld "1" "lecture-notes" "notes.pdf" rfl rfl).1,
    (C9_deleteFile.1 localFilesWorld "1" "lecture-notes" "notes.pdf" rfl rfl).2.1⟩,
   C9_deleteFile.2.1 remoteDelFailWorld "1" "lecture-notes" "notes.pdf" rfl rfl rfl,
   C9_deleteFile.2.2 localFilesWorld "1" "lecture-notes" "notes.pdf" [fm1] rfl⟩

end AcademicResources
